import Mathlib

/-
Verification of the WhatsApp prediction-market bot (`main.py`) against its
natural-language specification.

The embedding is shallow and exact: Python floats are modelled as rationals
(`ℚ`, all arithmetic exact), Python ints as `ℤ`, the SQLite tables as lists of
records, and the webhook JSON payload as an explicit `Json` tree.  Sends and
commits are recorded as an event trace; a `commit` event carries the snapshot
of the database state that became durable at that point, so atomicity of a
fill is the statement that a single `commit` event carries all three writes.
Python exceptions raised while processing an event are modelled with `Except`.
-/

-- Batteries marks the `Rat` arithmetic irreducible; re-enable unfolding so
-- that concrete rational arithmetic can be evaluated by `decide` and `rfl`.
attribute [local semireducible] Rat.ofScientific Rat.add Rat.sub Rat.mul Rat.inv

namespace Trading

/-! ### JSON values (the decoded webhook body) -/

mutual
/-- A decoded JSON value, as produced by `request.json()`. -/
inductive Json where
  | null
  | bool (b : Bool)
  | num (q : ℚ)
  | str (s : String)
  | arr (xs : JsonList)
  | obj (kvs : JsonObj)
deriving DecidableEq

/-- A JSON array, spelled out so equality stays decidable. -/
inductive JsonList where
  | nil
  | cons (hd : Json) (tl : JsonList)
deriving DecidableEq

/-- A JSON object: a sequence of key/value pairs. -/
inductive JsonObj where
  | nil
  | cons (k : String) (v : Json) (tl : JsonObj)
deriving DecidableEq
end

/-- Build a `JsonList` from a Lean list. -/
def JsonList.ofList : List Json → JsonList
  | [] => .nil
  | x :: xs => .cons x (ofList xs)

/-- Build a `JsonObj` from a Lean association list. -/
def JsonObj.ofList : List (String × Json) → JsonObj
  | [] => .nil
  | (k, v) :: kvs => .cons k v (ofList kvs)

/-- First value stored under a key, like Python `dict.get` on a present key. -/
def JsonObj.lookup : JsonObj → String → Option Json
  | .nil, _ => none
  | .cons k v tl, key => if k = key then some v else lookup tl key

/-- Python exceptions that the webhook handler can raise. -/
inductive PyErr where
  | jsonDecode
  | indexError
  | keyError
  | attributeError
  | typeError
  | valueError
deriving DecidableEq

/-- Python truthiness: `None`, `False`, `0`, `""`, `[]` and `{}` are falsy. -/
def Json.falsy : Json → Bool
  | .null => true
  | .bool b => !b
  | .num q => decide (q = 0)
  | .str s => s.isEmpty
  | .arr .nil => true
  | .arr (.cons _ _) => false
  | .obj .nil => true
  | .obj (.cons _ _ _) => false

/-- Python `x.get(k)` (default `None`): raises `AttributeError` unless `x` is a
dict, returns `null` when the key is absent. -/
def Json.getAttr : Json → String → Except PyErr Json
  | .obj kvs, k => .ok ((kvs.lookup k).getD .null)
  | _, _ => .error .attributeError

/-- Python `x or d`: the left operand unless it is falsy. -/
def Json.orElse (j d : Json) : Json := if j.falsy then d else j

/-- Python `x[0]`: first element of a list (or 1-character string), raising
`IndexError` when empty, `KeyError` on a dict (whose keys here are strings,
never `0`), `TypeError` otherwise. -/
def Json.sub0 : Json → Except PyErr Json
  | .arr (.cons x _) => .ok x
  | .arr .nil => .error .indexError
  | .str s =>
    match s.data with
    | [] => .error .indexError
    | c :: _ => .ok (.str ⟨[c]⟩)
  | .obj _ => .error .keyError
  | _ => .error .typeError

/-- Python `x[k]` for a string key `k`: dict lookup raising `KeyError` when the
key is absent, `TypeError` when `x` is not a dict. -/
def Json.subKey : Json → String → Except PyErr Json
  | .obj kvs, k =>
    match kvs.lookup k with
    | some v => .ok v
    | none => .error .keyError
  | _, _ => .error .typeError

/-- A value on which a string method (`.strip()`, `.split(...)`) is called must
be a string; anything else raises `AttributeError`. -/
def Json.asStr : Json → Except PyErr String
  | .str s => .ok s
  | _ => .error .attributeError

/-! ### Python string primitives used by the handler -/

/-- Python `str.upper()` (ASCII, which covers every string the bot compares). -/
def pyUpper (s : String) : String := ⟨s.data.map Char.toUpper⟩

/-- Python `str.lower()` (ASCII). -/
def pyLower (s : String) : String := ⟨s.data.map Char.toLower⟩

/-- Python `str.strip()`: drop whitespace from both ends. -/
def pyStrip (s : String) : String :=
  ⟨((s.data.dropWhile Char.isWhitespace).reverse.dropWhile Char.isWhitespace).reverse⟩

/-- Core of Python `str.split(sep)` for a one-character separator. -/
def splitChars (sep : Char) : List Char → List (List Char)
  | [] => [[]]
  | c :: cs =>
    match splitChars sep cs with
    | [] => [[c]]
    | g :: gs => if c = sep then [] :: g :: gs else (c :: g) :: gs

/-- Python `str.split(sep)` for a one-character separator. -/
def pySplit (s : String) (sep : Char) : List String :=
  (splitChars sep s.data).map (fun l => ⟨l⟩)

/-- Python `str.isdigit()` (restricted to ASCII digits, the only digits the
commands use). -/
def isDigitStr (s : String) : Bool :=
  !s.data.isEmpty && s.data.all (fun c => c.isDigit)

/-- Numeric value of an ASCII digit string. -/
def digitsToNat (s : String) : ℕ :=
  s.data.foldl (fun n c => 10 * n + (c.toNat - 48)) 0

/-- Python `int(s)`: strip whitespace, allow one sign, then digits; anything
else raises `ValueError`. -/
def pyInt : String → Except PyErr ℤ := fun s =>
  let t := pyStrip s
  match t.data with
  | [] => .error .valueError
  | c :: cs =>
    if c = '-' then
      if cs ≠ [] ∧ cs.all (fun d => d.isDigit) then .ok (-(digitsToNat ⟨cs⟩ : ℤ))
      else .error .valueError
    else if c = '+' then
      if cs ≠ [] ∧ cs.all (fun d => d.isDigit) then .ok (digitsToNat ⟨cs⟩ : ℤ)
      else .error .valueError
    else if (c :: cs).all (fun d => d.isDigit) then .ok (digitsToNat t : ℤ)
    else .error .valueError

/-! ### The ledger data model (`users`, `markets`, `bets` tables) -/

/-- A row of the `users` table.  `wa_id` is whatever value the webhook carried
in the message's `from` field; `balance` is play money (source default
1000.0), modelled exactly as a rational. -/
structure UserR where
  wa_id : Json
  balance : ℚ
deriving DecidableEq

/-- A row of the `markets` table. -/
structure MarketR where
  id : ℤ
  question : String
  is_open : Bool
  yes_price : ℚ
  no_price : ℚ
deriving DecidableEq

/-- A row of the `bets` table. -/
structure BetR where
  id : ℤ
  wa_id : Json
  market_id : ℤ
  side : String
  price : ℚ
  qty : ℤ
  ts : ℤ
deriving DecidableEq

/-- The committed database state.  `nextBetId` models the `bets` table's
autoincrement counter and `now` the wall clock read for a bet's timestamp. -/
structure DB where
  users : List UserR
  markets : List MarketR
  bets : List BetR
  nextBetId : ℤ
  now : ℤ
deriving DecidableEq

/-- Primary-key lookup in the `users` table (`db.get(User, wa_id)`). -/
def findUser : List UserR → Json → Option UserR
  | [], _ => none
  | u :: us, wa => if u.wa_id = wa then some u else findUser us wa

/-- Primary-key lookup in the `markets` table (`db.get(Market, market_id)`). -/
def findMarket : List MarketR → ℤ → Option MarketR
  | [], _ => none
  | m :: ms, i => if m.id = i then some m else findMarket ms i

/-! ### Outbound messages and the event trace -/

/-- An outbound WhatsApp message: a plain text (`send_text`) or the
interactive two-button payload of `send_yes_no_buttons`, with each button's
reply id and title. -/
inductive OutMsg where
  | text (dest : Json) (body : String)
  | buttons (dest : Json) (body : String) (idYes titleYes idNo titleNo : String)
deriving DecidableEq

/-- One observable effect of processing an event: a durable database commit
(carrying the snapshot that became durable) or an outbound send. -/
inductive Ev where
  | commit (db : DB)
  | send (m : OutMsg)
deriving DecidableEq

/-- The JSON body the POST webhook handler answers with. -/
inductive Resp where
  | okTrue
  | okFalse (e : PyErr)
deriving DecidableEq

/-! ### Pricing engine (`apply_price_impact`) -/

/-- `apply_price_impact(m, side, qty)`: `impact = min(0.10, 0.001 * qty)`;
on side `"YES"` move `yes_price` up by `impact` (clamped at 0.99) and derive
`no_price = max(0.01, 1.0 - yes_price)`; on any other side (the callers only
pass `"NO"`) the symmetric update. -/
def applyPriceImpact (m : MarketR) (side : String) (qty : ℤ) : MarketR :=
  let impact : ℚ := min 0.10 (0.001 * (qty : ℚ))
  if side = "YES" then
    let y := min 0.99 (m.yes_price + impact)
    { m with yes_price := y, no_price := max 0.01 (1.0 - y) }
  else
    let n := min 0.99 (m.no_price + impact)
    { m with no_price := n, yes_price := max 0.01 (1.0 - n) }

/-! ### Message formatting -/

/-- Python's `f"{x:.2f}"` on the exact rational: two digits after the point,
rounding to the nearest hundredth. -/
def fmt2 (q : ℚ) : String :=
  let n : ℤ := round (q * 100)
  let a := n.natAbs
  (if n < 0 then "-" else "") ++ toString (a / 100) ++ "."
    ++ (if a % 100 < 10 then "0" else "") ++ toString (a % 100)

/-- One line of the market listing. -/
def marketLine (m : MarketR) : String :=
  toString m.id ++ ") " ++ m.question ++ "  [YES " ++ fmt2 m.yes_price
    ++ " / NO " ++ fmt2 m.no_price ++ "] ("
    ++ (if m.is_open then "OPEN" else "CLOSED") ++ ")"

/-- `list_markets_text(db)` (the markets are kept in ascending-id order). -/
def listMarketsText (db : DB) : String :=
  String.intercalate "\n"
    (["Available markets (send the market number):"]
      ++ db.markets.map marketLine
      ++ ["\nCommands: markets | balance | <market_id>"])

/-- `send_yes_no_buttons(wa_id, market)`: the prompt body shows the current
quotes; the two reply ids encode `BET|<market_id>|<SIDE>`. -/
def yesNoButtons (wa : Json) (m : MarketR) : OutMsg :=
  OutMsg.buttons wa
    (m.question ++ "\n\nYES: " ++ fmt2 m.yes_price ++ " | NO: " ++ fmt2 m.no_price
      ++ "\n\nChoose:")
    ("BET|" ++ toString m.id ++ "|YES") ("YES (" ++ fmt2 m.yes_price ++ ")")
    ("BET|" ++ toString m.id ++ "|NO") ("NO (" ++ fmt2 m.no_price ++ ")")

/-- The confirmation text of a successful `place_bet` (sent after the commit,
with the already-debited balance). -/
def betPlacedText (m : MarketR) (side : String) (price : ℚ) (qty : ℤ)
    (newBal : ℚ) : String :=
  "✅ Bet placed!\nMarket " ++ toString m.id ++ ": " ++ m.question
    ++ "\nYou: BUY " ++ side ++ " @ " ++ fmt2 price ++ " × " ++ toString qty
    ++ "\nBalance: " ++ fmt2 newBal

/-! ### Ledger store / betting engine -/

/-- `get_or_create_user(db, wa_id)`: return the existing row, or insert a row
with the default balance 1000.0 and commit it immediately. -/
def getOrCreateUser (db : DB) (wa : Json) : DB × List Ev × UserR :=
  match findUser db.users wa with
  | some u => (db, [], u)
  | none =>
    let u : UserR := ⟨wa, 1000.0⟩
    let db' := { db with users := db.users ++ [u] }
    (db', [Ev.commit db'], u)

/-- The `u.balance -= cost` write, applied to the user's row. -/
def debitUser (us : List UserR) (wa : Json) (cost : ℚ) : List UserR :=
  us.map (fun v => if v.wa_id = wa then { v with balance := v.balance - cost } else v)

/-- The `apply_price_impact(m, side, qty)` write, applied to the market's row. -/
def bumpMarket (ms : List MarketR) (mid : ℤ) (side : String) (qty : ℤ) :
    List MarketR :=
  ms.map (fun x => if x.id = mid then applyPriceImpact x side qty else x)

/-- `place_bet(db, wa_id, market_id, side, qty=10)`: resolve/create the user,
then check market existence, openness, side validity and balance, each failure
sending one explanatory text and leaving the ledger untouched; on success
debit the balance, append the bet at the pre-update quote, update the market
prices, commit the three writes as one transaction and then send the
confirmation. -/
def placeBet (db : DB) (wa : Json) (marketId : ℤ) (side : String)
    (qty : ℤ) : DB × List Ev :=
  let r0 := getOrCreateUser db wa
  let db1 := r0.1
  let evs1 := r0.2.1
  let u := r0.2.2
  match findMarket db1.markets marketId with
  | none => (db1, evs1 ++ [Ev.send (OutMsg.text wa "Market not found. Send 'markets'.")])
  | some m =>
    if !m.is_open then
      (db1, evs1 ++ [Ev.send (OutMsg.text wa "Market is closed.")])
    else
      let sideU := pyUpper side
      if ¬(sideU = "YES" ∨ sideU = "NO") then
        (db1, evs1 ++ [Ev.send (OutMsg.text wa "Invalid side.")])
      else
        let price := if sideU = "YES" then m.yes_price else m.no_price
        let cost := (qty : ℚ) * price
        if u.balance < cost then
          (db1, evs1 ++ [Ev.send (OutMsg.text wa
            ("Insufficient balance. Need " ++ fmt2 cost ++ ", you have "
              ++ fmt2 u.balance))])
        else
          let db2 := { db1 with
            users := debitUser db1.users wa cost,
            bets := db1.bets ++ [⟨db1.nextBetId, wa, m.id, sideU, price, qty, db1.now⟩],
            markets := bumpMarket db1.markets m.id sideU qty,
            nextBetId := db1.nextBetId + 1 }
          (db2, evs1 ++ [Ev.commit db2,
            Ev.send (OutMsg.text wa (betPlacedText m sideU price qty (u.balance - cost)))])

/-- The database seeded by `ensure_seed_markets()` on first start. -/
def seedDB : DB :=
  { users := []
    markets := [⟨1, "Will India win the next match?", true, 0.50, 0.50⟩,
                ⟨2, "Will it rain in Mumbai tomorrow?", true, 0.45, 0.55⟩]
    bets := []
    nextBetId := 1
    now := 0 }

/-! ### The POST webhook handler (`inbound`) -/

/-- The navigation prelude of `inbound`:
`entry = (data.get("entry") or [])[0]`, `changes = (entry.get("changes") or [])[0]`,
`value = changes.get("value") or {}`, `messages = value.get("messages") or []`;
`none` is the early `{"ok": True}` return (no messages, or falsy `from`),
otherwise the first message and its sender id are produced. -/
def navigate (data : Json) : Except PyErr (Option (Json × Json)) := do
  let e0 ← data.getAttr "entry"
  let entry ← (e0.orElse (Json.arr .nil)).sub0
  let c0 ← entry.getAttr "changes"
  let changes ← (c0.orElse (Json.arr .nil)).sub0
  let v0 ← changes.getAttr "value"
  let value := v0.orElse (Json.obj .nil)
  let m0 ← value.getAttr "messages"
  let messages := m0.orElse (Json.arr .nil)
  if messages.falsy then
    pure none
  else do
    let msg ← messages.sub0
    let wa ← msg.getAttr "from"
    if wa.falsy then pure none else pure (some (msg, wa))

/-- The text-command dispatch at the bottom of `inbound`, on the normalized
(stripped, lowercased) body. -/
def textDispatch (text : String) (wa : Json) (db : DB) :
    Except PyErr (DB × List Ev) :=
  if text = "hi" ∨ text = "hello" ∨ text = "start" then
    pure (db, [Ev.send (OutMsg.text wa
      "Welcome! Type 'markets' to see questions, or 'balance'.")])
  else if text = "markets" then
    pure (db, [Ev.send (OutMsg.text wa (listMarketsText db))])
  else if text = "balance" then
    match findUser db.users wa with
    | some u => pure (db, [Ev.send (OutMsg.text wa ("Your balance: " ++ fmt2 u.balance))])
    | none => throw PyErr.attributeError
  else if isDigitStr text then
    match findMarket db.markets (digitsToNat text : ℤ) with
    | none => pure (db, [Ev.send (OutMsg.text wa "Market not found. Type 'markets'.")])
    | some m => pure (db, [Ev.send (yesNoButtons wa m)])
  else
    pure (db, [Ev.send (OutMsg.text wa "Send: markets | balance | <market_id> (example: 1)")])

/-- The button-tap branch of `inbound`: when the message is interactive and a
well-formed `BET|<market_id>|<side>` button reply, run `place_bet` with
quantity 10 and return (`some`); otherwise fall through (`none`). -/
def buttonBranch (msg : Json) (ty : Json) (wa : Json) (db1 : DB) :
    Except PyErr (Option (DB × List Ev)) := do
  if ty = Json.str "interactive" then
    let inter := ((← msg.getAttr "interactive")).orElse (Json.obj .nil)
    let ity ← inter.getAttr "type"
    if ity = Json.str "button_reply" then
      let br ← inter.subKey "button_reply"
      let btnId ← br.subKey "id"
      let s ← btnId.asStr
      let parts := pySplit s '|'
      if parts.length = 3 ∧ parts.headD "" = "BET" then do
        let marketId ← pyInt (parts.getD 1 "")
        let side := parts.getD 2 ""
        pure (some (placeBet db1 wa marketId side 10))
      else pure none
    else pure none
  else pure none

/-- Everything `inbound` does for one message once the user row exists: the
button-tap branch, else normalize the text body and dispatch on it. -/
def handleMsg (msg : Json) (wa : Json) (db1 : DB) :
    Except PyErr (DB × List Ev) := do
  let ty ← msg.getAttr "type"
  match ← buttonBranch msg ty wa db1 with
  | some r => pure r
  | none => do
    let text ←
      if ty = Json.str "text" then do
        let t ← msg.subKey "text"
        let b ← t.subKey "body"
        let s ← (b.orElse (Json.str "")).asStr
        pure (pyLower (pyStrip s))
      else pure ""
    textDispatch text wa db1

/-- The result of one POST webhook call: the committed state, the events that
happened, and the handler's JSON response. -/
structure InbRes where
  db : DB
  evs : List Ev
  resp : Resp
deriving DecidableEq

/-- The body of `inbound`'s `try`: navigate to the message, lazily create the
user, handle the message.  Any `PyErr` raised inside is caught by the
`except Exception` clause and turned into `{"ok": false, "error": ...}`;
state committed before the error (the lazy user creation) stays committed. -/
def processBody (data : Json) (db0 : DB) : InbRes :=
  match navigate data with
  | .error e => ⟨db0, [], .okFalse e⟩
  | .ok none => ⟨db0, [], .okTrue⟩
  | .ok (some (msg, wa)) =>
    let r0 := getOrCreateUser db0 wa
    match handleMsg msg wa r0.1 with
    | .error e => ⟨r0.1, r0.2.1, .okFalse e⟩
    | .ok (db2, evs2) => ⟨db2, r0.2.1 ++ evs2, .okTrue⟩

/-- The whole POST handler.  `data = await request.json()` runs before the
`try`, so a body that is not valid JSON (`none`) raises out of the handler;
for a parsed body the `try`/`except` always produces a response. -/
def inbound (body : Option Json) (db0 : DB) : Except PyErr InbRes :=
  match body with
  | none => .error PyErr.jsonDecode
  | some data => .ok (processBody data db0)

/-- The canonical webhook wrapper around one message object:
`{"entry": [{"changes": [{"value": {"messages": [msg]}}]}]}`. -/
def wrapMsg (msg : Json) : Json :=
  Json.obj (.cons "entry" (Json.arr (.cons
    (Json.obj (.cons "changes" (Json.arr (.cons
      (Json.obj (.cons "value"
        (Json.obj (.cons "messages" (Json.arr (.cons msg .nil)) .nil)) .nil))
      .nil)) .nil))
    .nil)) .nil)

/-- An inbound text message from sender `wa` with raw body `body`. -/
def mkTextMsg (wa : Json) (body : Json) : Json :=
  Json.obj (.cons "from" wa (.cons "type" (Json.str "text")
    (.cons "text" (Json.obj (.cons "body" body .nil)) .nil)))

/-- An inbound button-reply tap from sender `wa` with payload id `btnId`. -/
def mkButtonMsg (wa : Json) (btnId : String) : Json :=
  Json.obj (.cons "from" wa (.cons "type" (Json.str "interactive")
    (.cons "interactive"
      (Json.obj (.cons "type" (Json.str "button_reply")
        (.cons "button_reply" (Json.obj (.cons "id" (Json.str btnId) .nil)) .nil)))
      .nil)))

/-! ### Shared lemmas about the pricing engine -/

/-- After any `apply_price_impact` the chosen side's clamp at 0.99 keeps the
derived opposite price above its 0.01 clamp, so in exact arithmetic the two
quotes always sum to exactly 1. -/
theorem applyPriceImpact_sum (m : MarketR) (side : String) (qty : ℤ) :
    (applyPriceImpact m side qty).yes_price + (applyPriceImpact m side qty).no_price = 1 := by
  rcases eq_or_ne side "YES" with h | h
  · simp only [applyPriceImpact, h, String.reduceEq, reduceIte]
    have hy : min (0.99 : ℚ) (m.yes_price + min 0.10 (0.001 * (qty : ℚ))) ≤ 0.99 :=
      min_le_left _ _
    rw [max_eq_right (by linarith)]
    ring
  · simp only [applyPriceImpact, if_neg h]
    have hn : min (0.99 : ℚ) (m.no_price + min 0.10 (0.001 * (qty : ℚ))) ≤ 0.99 :=
      min_le_left _ _
    rw [max_eq_right (by linarith)]
    ring

/-- C2: the price-impact rule is `impact = min(0.10, 0.001*qty)`, chosen side
moved up by `impact` and clamped at 0.99, opposite side derived as
`max(0.01, 1 - updated)`; hence for `qty > 0` (and a quote within its 0.99
clamp) the chosen side's quote does not decrease — strictly increases unless
clamped at 0.99 — and the opposite quote equals `max(0.01, 1 - updated)`. -/
theorem applyPriceImpact_spec (m : MarketR) (qty : ℤ) :
    (applyPriceImpact m "YES" qty =
      { m with yes_price := min 0.99 (m.yes_price + min 0.10 (0.001 * (qty : ℚ))),
               no_price := max 0.01 (1.0 - min 0.99 (m.yes_price + min 0.10 (0.001 * (qty : ℚ)))) }) ∧
    (applyPriceImpact m "NO" qty =
      { m with no_price := min 0.99 (m.no_price + min 0.10 (0.001 * (qty : ℚ))),
               yes_price := max 0.01 (1.0 - min 0.99 (m.no_price + min 0.10 (0.001 * (qty : ℚ)))) }) ∧
    (0 < qty → m.yes_price ≤ 0.99 →
      m.yes_price ≤ (applyPriceImpact m "YES" qty).yes_price ∧
      ((applyPriceImpact m "YES" qty).yes_price = 0.99 ∨
        m.yes_price < (applyPriceImpact m "YES" qty).yes_price) ∧
      (applyPriceImpact m "YES" qty).no_price =
        max 0.01 (1.0 - (applyPriceImpact m "YES" qty).yes_price)) ∧
    (0 < qty → m.no_price ≤ 0.99 →
      m.no_price ≤ (applyPriceImpact m "NO" qty).no_price ∧
      ((applyPriceImpact m "NO" qty).no_price = 0.99 ∨
        m.no_price < (applyPriceImpact m "NO" qty).no_price) ∧
      (applyPriceImpact m "NO" qty).yes_price =
        max 0.01 (1.0 - (applyPriceImpact m "NO" qty).no_price)) := by
  have himp : ∀ hq : 0 < qty, (0 : ℚ) < min 0.10 (0.001 * (qty : ℚ)) := by
    intro hq
    have h1 : (1 : ℚ) ≤ (qty : ℚ) := by exact_mod_cast hq
    apply lt_min (by norm_num)
    nlinarith
  refine ⟨by simp only [applyPriceImpact, String.reduceEq, reduceIte],
    by simp only [applyPriceImpact, String.reduceEq, reduceIte], ?_, ?_⟩
  · intro hq hle
    have h0 := himp hq
    simp only [applyPriceImpact, String.reduceEq, reduceIte]
    refine ⟨le_min hle (by linarith), ?_, trivial⟩
    rcases le_or_lt (m.yes_price + min 0.10 (0.001 * (qty : ℚ))) 0.99 with hc | hc
    · right; rw [min_eq_right hc]; linarith
    · left; exact min_eq_left hc.le
  · intro hq hle
    have h0 := himp hq
    simp only [applyPriceImpact, String.reduceEq, reduceIte]
    refine ⟨le_min hle (by linarith), ?_, trivial⟩
    rcases le_or_lt (m.no_price + min 0.10 (0.001 * (qty : ℚ))) 0.99 with hc | hc
    · right; rw [min_eq_right hc]; linarith
    · left; exact min_eq_left hc.le

/-- Witness for C2 at the seed market 1 (0.50/0.50) and `qty = 10`:
the YES quote rises to 0.51 and the NO quote becomes 0.49. -/
theorem applyPriceImpact_spec_witness :
    ((0 : ℤ) < 10 ∧ (0.50 : ℚ) ≤ 0.99) ∧
    ((0.50 : ℚ) ≤ (applyPriceImpact ⟨1, "q", true, 0.50, 0.50⟩ "YES" 10).yes_price ∧
      ((applyPriceImpact ⟨1, "q", true, 0.50, 0.50⟩ "YES" 10).yes_price = 0.99 ∨
        (0.50 : ℚ) < (applyPriceImpact ⟨1, "q", true, 0.50, 0.50⟩ "YES" 10).yes_price) ∧
      (applyPriceImpact ⟨1, "q", true, 0.50, 0.50⟩ "YES" 10).no_price =
        max 0.01 (1.0 - (applyPriceImpact ⟨1, "q", true, 0.50, 0.50⟩ "YES" 10).yes_price)) :=
  ⟨⟨by decide, by decide⟩,
    (applyPriceImpact_spec ⟨1, "q", true, 0.50, 0.50⟩ 10).2.2.1 (by decide) (by decide)⟩

/-- C7 (amended): with both quotes in [0.01, 0.99] and `qty ≥ 0`, both updated
quotes lie in [0.01, 0.99] again; moreover in exact arithmetic the updated
quotes always sum to exactly 1 — the 0.99 clamp on the chosen side keeps the
derived opposite price above 0.01, so the 0.01 clamp never engages. -/
theorem applyPriceImpact_range (m : MarketR) (side : String) (qty : ℤ)
    (hy1 : 0.01 ≤ m.yes_price) (hy2 : m.yes_price ≤ 0.99)
    (hn1 : 0.01 ≤ m.no_price) (hn2 : m.no_price ≤ 0.99) (hq : 0 ≤ qty) :
    (0.01 ≤ (applyPriceImpact m side qty).yes_price ∧
      (applyPriceImpact m side qty).yes_price ≤ 0.99) ∧
    (0.01 ≤ (applyPriceImpact m side qty).no_price ∧
      (applyPriceImpact m side qty).no_price ≤ 0.99) ∧
    (applyPriceImpact m side qty).yes_price + (applyPriceImpact m side qty).no_price = 1 := by
  have h0 : (0 : ℚ) ≤ min 0.10 (0.001 * (qty : ℚ)) := by
    apply le_min (by norm_num)
    have : (0 : ℚ) ≤ (qty : ℚ) := by exact_mod_cast hq
    nlinarith
  have key : ∀ p : ℚ, 0.01 ≤ p →
      (0.01 ≤ min 0.99 (p + min 0.10 (0.001 * (qty : ℚ))) ∧
        min 0.99 (p + min 0.10 (0.001 * (qty : ℚ))) ≤ 0.99) ∧
      (0.01 ≤ max 0.01 (1.0 - min 0.99 (p + min 0.10 (0.001 * (qty : ℚ)))) ∧
        max 0.01 (1.0 - min 0.99 (p + min 0.10 (0.001 * (qty : ℚ)))) ≤ 0.99) := by
    intro p hp
    have h1 : (0.01 : ℚ) ≤ min 0.99 (p + min 0.10 (0.001 * (qty : ℚ))) :=
      le_min (by norm_num) (by linarith)
    have h2 : min (0.99 : ℚ) (p + min 0.10 (0.001 * (qty : ℚ))) ≤ 0.99 :=
      min_le_left _ _
    exact ⟨⟨h1, h2⟩, le_max_left _ _, max_le (by norm_num) (by linarith)⟩
  refine ⟨?_, ?_, applyPriceImpact_sum m side qty⟩ <;>
    rcases eq_or_ne side "YES" with h | h
  · simp only [applyPriceImpact, h, String.reduceEq, reduceIte]
    exact (key m.yes_price hy1).1
  · simp only [applyPriceImpact, if_neg h]
    exact (key m.no_price hn1).2
  · simp only [applyPriceImpact, h, String.reduceEq, reduceIte]
    exact (key m.yes_price hy1).2
  · simp only [applyPriceImpact, if_neg h]
    exact (key m.no_price hn1).1

/-- Witness for C7 at the seed market 2 (0.45/0.55), side NO, `qty = 200`
(impact clamped at 0.10): ranges preserved and the quotes sum to 1. -/
theorem applyPriceImpact_range_witness :
    ((0.01 : ℚ) ≤ 0.45 ∧ (0.45 : ℚ) ≤ 0.99 ∧ (0.01 : ℚ) ≤ 0.55 ∧ (0.55 : ℚ) ≤ 0.99 ∧
      (0 : ℤ) ≤ 200) ∧
    ((0.01 ≤ (applyPriceImpact ⟨2, "r", true, 0.45, 0.55⟩ "NO" 200).yes_price ∧
      (applyPriceImpact ⟨2, "r", true, 0.45, 0.55⟩ "NO" 200).yes_price ≤ 0.99) ∧
     (0.01 ≤ (applyPriceImpact ⟨2, "r", true, 0.45, 0.55⟩ "NO" 200).no_price ∧
      (applyPriceImpact ⟨2, "r", true, 0.45, 0.55⟩ "NO" 200).no_price ≤ 0.99) ∧
     (applyPriceImpact ⟨2, "r", true, 0.45, 0.55⟩ "NO" 200).yes_price +
       (applyPriceImpact ⟨2, "r", true, 0.45, 0.55⟩ "NO" 200).no_price = 1) :=
  ⟨⟨by decide, by decide, by decide, by decide, by decide⟩,
    applyPriceImpact_range ⟨2, "r", true, 0.45, 0.55⟩ "NO" 200
      (by decide) (by decide) (by decide) (by decide) (by decide)⟩

/-- Counterexample to C7 as stated: clamping at a boundary can never break the
sum — there is no in-range market, side and non-negative quantity for which
the updated quotes fail to sum to exactly 1 (exact arithmetic). -/
theorem applyPriceImpact_sum_never_breaks :
    ¬ ∃ (m : MarketR) (side : String) (qty : ℤ),
      (0.01 ≤ m.yes_price ∧ m.yes_price ≤ 0.99 ∧
       0.01 ≤ m.no_price ∧ m.no_price ≤ 0.99 ∧ 0 ≤ qty) ∧
      (applyPriceImpact m side qty).yes_price + (applyPriceImpact m side qty).no_price ≠ 1 := by
  rintro ⟨m, side, qty, -, hne⟩
  exact hne (applyPriceImpact_sum m side qty)

/-! ### Shared lemmas about the ledger store -/

/-- A found user row carries the looked-up key. -/
theorem findUser_wa_id (us : List UserR) (wa : Json) (u : UserR)
    (h : findUser us wa = some u) : u.wa_id = wa := by
  induction us with
  | nil => simp [findUser] at h
  | cons x xs ih =>
    unfold findUser at h
    by_cases hx : x.wa_id = wa
    · rw [if_pos hx] at h
      injection h with h'
      exact h' ▸ hx
    · rw [if_neg hx] at h
      exact ih h

/-- Appending a fresh row for an absent key makes it findable. -/
theorem findUser_append_new (us : List UserR) (wa : Json) (b : ℚ)
    (h : findUser us wa = none) :
    findUser (us ++ [⟨wa, b⟩]) wa = some ⟨wa, b⟩ := by
  induction us with
  | nil => simp [findUser]
  | cons x xs ih =>
    rw [List.cons_append]
    unfold findUser at h ⊢
    by_cases hx : x.wa_id = wa
    · rw [if_pos hx] at h
      exact absurd h (by simp)
    · rw [if_neg hx] at h ⊢
      exact ih h

/-- What `get_or_create_user` guarantees: the returned row is stored under the
sender id, and the markets/bets tables and counters are untouched. -/
theorem getOrCreateUser_find (db : DB) (wa : Json) :
    findUser (getOrCreateUser db wa).1.users wa = some (getOrCreateUser db wa).2.2 ∧
    (getOrCreateUser db wa).2.2.wa_id = wa ∧
    (getOrCreateUser db wa).1.markets = db.markets ∧
    (getOrCreateUser db wa).1.bets = db.bets ∧
    (getOrCreateUser db wa).1.nextBetId = db.nextBetId ∧
    (getOrCreateUser db wa).1.now = db.now := by
  cases h : findUser db.users wa with
  | none =>
    have hfind := findUser_append_new db.users wa 1000.0 h
    simp [getOrCreateUser, h, hfind]
  | some u =>
    simp [getOrCreateUser, h, findUser_wa_id db.users wa u h]

/-- Debiting a user keeps the row findable, with exactly the cost removed. -/
theorem findUser_debit (us : List UserR) (wa : Json) (u : UserR) (c : ℚ)
    (h : findUser us wa = some u) :
    findUser (debitUser us wa c) wa = some { u with balance := u.balance - c } := by
  induction us with
  | nil => simp [findUser] at h
  | cons x xs ih =>
    unfold findUser at h
    simp only [debitUser, List.map_cons]
    by_cases hx : x.wa_id = wa
    · rw [if_pos hx] at h
      injection h with h'
      subst h'
      rw [if_pos hx]
      unfold findUser
      rw [if_pos hx]
    · rw [if_neg hx] at h
      rw [if_neg hx]
      unfold findUser
      rw [if_neg hx]
      exact ih h

/-- The debit rewrites balances only; the key column is untouched. -/
theorem debitUser_keys (us : List UserR) (wa : Json) (c : ℚ) :
    (debitUser us wa c).map (fun u => u.wa_id) = us.map (fun u => u.wa_id) := by
  induction us with
  | nil => rfl
  | cons x xs ih =>
    simp only [debitUser, List.map_cons] at ih ⊢
    by_cases hx : x.wa_id = wa
    · rw [if_pos hx]
      exact congrArg (List.cons x.wa_id) ih
    · rw [if_neg hx]
      exact congrArg (List.cons x.wa_id) ih

/-- C8: `get_or_create_user` is idempotent — the returned row is the stored one
(default balance 1000.0 when the id is new, the untouched existing row
otherwise, never reset), the row is persisted immediately (one commit) exactly
when it is new, and a second call returns the same record with no further
state change or commit. -/
theorem getOrCreateUser_idempotent (db : DB) (wa : Json) :
    (getOrCreateUser db wa).2.2 = (findUser db.users wa).getD ⟨wa, 1000.0⟩ ∧
    (getOrCreateUser db wa).1 =
      { db with users := if (findUser db.users wa).isSome then db.users
                         else db.users ++ [⟨wa, 1000.0⟩] } ∧
    (getOrCreateUser db wa).2.1 =
      (if (findUser db.users wa).isSome then []
       else [Ev.commit (getOrCreateUser db wa).1]) ∧
    getOrCreateUser (getOrCreateUser db wa).1 wa =
      ((getOrCreateUser db wa).1, [], (getOrCreateUser db wa).2.2) := by
  cases h : findUser db.users wa with
  | none =>
    have hfind := findUser_append_new db.users wa 1000.0 h
    simp [getOrCreateUser, h, hfind]
  | some u =>
    simp [getOrCreateUser, h]

/-! ### The betting engine: success and failure -/

/-- C1: a valid bet — the market exists and is open, the side is
case-insensitively YES or NO, and the balance covers `cost = qty * quote` —
debits exactly `cost` from the user, appends exactly one bet priced at the
pre-update quote, applies the pricing-engine update to the market, commits the
three writes as one transaction (a single commit event whose snapshot already
carries all three), and then sends the confirmation. -/
theorem placeBet_success (db : DB) (wa : Json) (marketId : ℤ) (side : String)
    (qty : ℤ) (m : MarketR)
    (hm : findMarket db.markets marketId = some m)
    (hopen : m.is_open = true)
    (hside : pyUpper side = "YES" ∨ pyUpper side = "NO")
    (hbal : (qty : ℚ) * (if pyUpper side = "YES" then m.yes_price else m.no_price)
      ≤ (getOrCreateUser db wa).2.2.balance) :
    let u := (getOrCreateUser db wa).2.2
    let p := if pyUpper side = "YES" then m.yes_price else m.no_price
    let cost := (qty : ℚ) * p
    let db2 : DB := {
        users := debitUser (getOrCreateUser db wa).1.users wa cost,
        markets := bumpMarket db.markets m.id (pyUpper side) qty,
        bets := db.bets ++ [⟨db.nextBetId, wa, m.id, pyUpper side, p, qty, db.now⟩],
        nextBetId := db.nextBetId + 1,
        now := db.now }
    placeBet db wa marketId side qty =
      (db2, (getOrCreateUser db wa).2.1 ++
        [Ev.commit db2,
         Ev.send (OutMsg.text wa (betPlacedText m (pyUpper side) p qty (u.balance - cost)))]) ∧
    findUser db2.users wa = some ⟨wa, u.balance - cost⟩ := by
  intro u p cost db2
  obtain ⟨hfind, hwa, hmk, hbt, hni, hnw⟩ := getOrCreateUser_find db wa
  have hm1 : findMarket (getOrCreateUser db wa).1.markets marketId = some m := by
    rw [hmk]; exact hm
  constructor
  · simp only [placeBet, hmk, hm, hopen, Bool.not_true, Bool.false_eq_true, if_false,
      if_neg (not_not_intro hside), if_neg (not_lt.mpr hbal), hbt, hni, hnw]
  · have h2 := findUser_debit (getOrCreateUser db wa).1.users wa u cost hfind
    have h3 : ({ u with balance := u.balance - cost } : UserR) = ⟨wa, u.balance - cost⟩ :=
      congrArg (fun y => (⟨y, u.balance - cost⟩ : UserR)) hwa
    rw [h3] at h2
    exact h2

/-- Witness for C1: user "u7" bets YES on seed market 1 with the default
quantity 10 at quote 0.50 — cost 5.00, balance 995, one bet row, prices
0.51/0.49, one commit then one confirmation send. -/
theorem placeBet_success_witness :
    placeBet seedDB (Json.str "u7") 1 "yes" 10 =
      ({ users := [⟨Json.str "u7", 995⟩],
         markets := [⟨1, "Will India win the next match?", true, 0.51, 0.49⟩,
                     ⟨2, "Will it rain in Mumbai tomorrow?", true, 0.45, 0.55⟩],
         bets := [⟨1, Json.str "u7", 1, "YES", 0.50, 10, 0⟩],
         nextBetId := 2, now := 0 },
       [Ev.commit { seedDB with users := [⟨Json.str "u7", 1000.0⟩] },
        Ev.commit { users := [⟨Json.str "u7", 995⟩],
                    markets := [⟨1, "Will India win the next match?", true, 0.51, 0.49⟩,
                                ⟨2, "Will it rain in Mumbai tomorrow?", true, 0.45, 0.55⟩],
                    bets := [⟨1, Json.str "u7", 1, "YES", 0.50, 10, 0⟩],
                    nextBetId := 2, now := 0 },
        Ev.send (OutMsg.text (Json.str "u7")
          "✅ Bet placed!\nMarket 1: Will India win the next match?\nYou: BUY YES @ 0.50 × 10\nBalance: 995.00")]) :=
  ((placeBet_success seedDB (Json.str "u7") 1 "yes" 10
      ⟨1, "Will India win the next match?", true, 0.50, 0.50⟩
      (by decide) (by decide) (Or.inl (by decide)) (by decide)).1).trans (by decide)

/-- Whether `place_bet` hits one of its four rejection checks, in source
order: no such market; market closed; side not YES/NO after upper-casing;
balance below `qty * quote`. -/
def placeBetFails (db1 : DB) (u : UserR) (marketId : ℤ) (side : String)
    (qty : ℤ) : Bool :=
  match findMarket db1.markets marketId with
  | none => true
  | some m =>
    !m.is_open ||
    !(decide (pyUpper side = "YES" ∨ pyUpper side = "NO")) ||
    decide (u.balance < (qty : ℚ) *
      (if pyUpper side = "YES" then m.yes_price else m.no_price))

/-- The explanatory text `place_bet` sends for the first failing check, in
source order. -/
def placeBetFailText (db1 : DB) (u : UserR) (marketId : ℤ) (side : String)
    (qty : ℤ) : String :=
  match findMarket db1.markets marketId with
  | none => "Market not found. Send 'markets'."
  | some m =>
    if !m.is_open then "Market is closed."
    else if ¬(pyUpper side = "YES" ∨ pyUpper side = "NO") then "Invalid side."
    else
      "Insufficient balance. Need "
        ++ fmt2 ((qty : ℚ) * (if pyUpper side = "YES" then m.yes_price else m.no_price))
        ++ ", you have " ++ fmt2 u.balance

/-- C3: every failing `place_bet` — unknown market, closed market, invalid
side, or insufficient balance (whose text reports the required and available
amounts) — sends exactly one explanatory text and leaves the ledger exactly
as it was after the lazy user creation: no debit, no bet row, no price
change, and no further commit. -/
theorem placeBet_failure (db : DB) (wa : Json) (marketId : ℤ) (side : String)
    (qty : ℤ)
    (h : placeBetFails (getOrCreateUser db wa).1 (getOrCreateUser db wa).2.2
      marketId side qty = true) :
    placeBet db wa marketId side qty =
      ((getOrCreateUser db wa).1,
       (getOrCreateUser db wa).2.1 ++ [Ev.send (OutMsg.text wa
         (placeBetFailText (getOrCreateUser db wa).1 (getOrCreateUser db wa).2.2
           marketId side qty))]) := by
  cases hm : findMarket (getOrCreateUser db wa).1.markets marketId with
  | none => simp [placeBet, placeBetFailText, hm]
  | some m =>
    cases hopen : m.is_open with
    | false => simp [placeBet, placeBetFailText, hm, hopen]
    | true =>
      by_cases hside : pyUpper side = "YES" ∨ pyUpper side = "NO"
      · rcases hside with hs | hs
        · by_cases hbal : (getOrCreateUser db wa).2.2.balance < (qty : ℚ) * m.yes_price
          · simp [placeBet, placeBetFailText, hm, hopen, hs, hbal]
          · exfalso
            simp [placeBetFails, hm, hopen, hs, hbal] at h
        · by_cases hbal : (getOrCreateUser db wa).2.2.balance < (qty : ℚ) * m.no_price
          · simp [placeBet, placeBetFailText, hm, hopen, hs, hbal]
          · exfalso
            simp [placeBetFails, hm, hopen, hs, hbal] at h
      · simp [placeBet, placeBetFailText, hm, hopen, hside]

/-- Witness for C3: an insufficient-balance bet (quantity 10000 on seed
market 1, cost 5000.00 against balance 1000.00) changes nothing beyond the
lazy user creation and sends the amounts-reporting text. -/
theorem placeBet_failure_witness :
    placeBet seedDB (Json.str "u9") 1 "NO" 10000 =
      ({ seedDB with users := [⟨Json.str "u9", 1000.0⟩] },
       [Ev.commit { seedDB with users := [⟨Json.str "u9", 1000.0⟩] },
        Ev.send (OutMsg.text (Json.str "u9")
          "Insufficient balance. Need 5000.00, you have 1000.00")]) :=
  (placeBet_failure seedDB (Json.str "u9") 1 "NO" 10000 (by decide)).trans (by decide)

/-! ### The webhook handler: navigation, text commands, malformed bodies -/

/-- `dict.get` on an explicit object, by computation. -/
theorem getAttr_obj (kvs : JsonObj) (k : String) :
    (Json.obj kvs).getAttr k = Except.ok ((kvs.lookup k).getD Json.null) := rfl

/-- A non-empty JSON array is truthy. -/
theorem falsy_arr_cons (x : Json) (xs : JsonList) :
    (Json.arr (.cons x xs)).falsy = false := rfl

/-- A non-empty JSON object is truthy. -/
theorem falsy_obj_cons (k : String) (v : Json) (kvs : JsonObj) :
    (Json.obj (.cons k v kvs)).falsy = false := rfl

/-- Navigating the canonical single-message wrapper reaches the message and
its (truthy) sender id. -/
theorem navigate_wrapMsg (msg wa : Json)
    (hfrom : msg.getAttr "from" = Except.ok wa) (hwa : wa.falsy = false) :
    navigate (wrapMsg msg) = Except.ok (some (msg, wa)) := by
  simp [navigate, wrapMsg, getAttr_obj, JsonObj.lookup, Json.orElse, falsy_arr_cons,
    falsy_obj_cons, Json.sub0, hfrom, hwa, Bind.bind, Except.bind, pure, Except.pure]

/-- `(body or "")` followed by the string methods recovers the body string. -/
theorem orElse_str_empty (s : String) :
    ((Json.str s).orElse (Json.str "")).asStr = Except.ok s := by
  by_cases h : s.isEmpty
  · rw [(String.isEmpty_iff s).mp h]
    rfl
  · simp [Json.orElse, Json.falsy, h, Json.asStr]

/-- On a text message the handler normalizes the body (strip, lower) and runs
the text dispatch; the button branch does not fire. -/
theorem handleMsg_text (wa : Json) (s : String) (db1 : DB) :
    handleMsg (mkTextMsg wa (Json.str s)) wa db1 =
      textDispatch (pyLower (pyStrip s)) wa db1 := by
  simp [handleMsg, buttonBranch, mkTextMsg, Json.getAttr, JsonObj.lookup,
    Json.subKey, orElse_str_empty, Bind.bind, Except.bind, pure, Except.pure]

/-- On a pure-digit normalized body the dispatch looks the market up and
answers with the not-found text or the two-button prompt. -/
theorem textDispatch_digit (t : String) (wa : Json) (db : DB)
    (ht : isDigitStr t = true) :
    textDispatch t wa db =
      (match findMarket db.markets (digitsToNat t : ℤ) with
      | none => Except.ok (db, [Ev.send (OutMsg.text wa "Market not found. Type 'markets'.")])
      | some m => Except.ok (db, [Ev.send (yesNoButtons wa m)])) := by
  have h1 : t ≠ "hi" := by intro h; rw [h] at ht; exact absurd ht (by decide)
  have h2 : t ≠ "hello" := by intro h; rw [h] at ht; exact absurd ht (by decide)
  have h3 : t ≠ "start" := by intro h; rw [h] at ht; exact absurd ht (by decide)
  have h4 : t ≠ "markets" := by intro h; rw [h] at ht; exact absurd ht (by decide)
  have h5 : t ≠ "balance" := by intro h; rw [h] at ht; exact absurd ht (by decide)
  simp [textDispatch, h1, h2, h3, h4, h5, ht, pure, Except.pure]

/-- C4 (amended): for an inbound text message whose normalized body is a
pure-digit string, the handler replies with the "not found" text exactly when
no market has that id, and with the interactive two-button YES/NO prompt —
current quotes in the body and titles, button ids `BET|<id>|YES` and
`BET|<id>|NO` — exactly when a market with that id exists, whether or not it
is open (the digit branch never checks `is_open`). -/
theorem digit_text_reply (wa : Json) (s : String) (db : DB)
    (hwa : wa.falsy = false)
    (hd : isDigitStr (pyLower (pyStrip s)) = true) :
    processBody (wrapMsg (mkTextMsg wa (Json.str s))) db =
      (match findMarket (getOrCreateUser db wa).1.markets
          (digitsToNat (pyLower (pyStrip s)) : ℤ) with
      | none => ⟨(getOrCreateUser db wa).1,
          (getOrCreateUser db wa).2.1 ++
            [Ev.send (OutMsg.text wa "Market not found. Type 'markets'.")],
          Resp.okTrue⟩
      | some m => ⟨(getOrCreateUser db wa).1,
          (getOrCreateUser db wa).2.1 ++ [Ev.send (yesNoButtons wa m)],
          Resp.okTrue⟩) := by
  have hfrom : (mkTextMsg wa (Json.str s)).getAttr "from" = Except.ok wa := by
    simp [mkTextMsg, Json.getAttr, JsonObj.lookup]
  have hnav := navigate_wrapMsg (mkTextMsg wa (Json.str s)) wa hfrom hwa
  simp only [processBody, hnav]
  rw [handleMsg_text wa s (getOrCreateUser db wa).1,
    textDispatch_digit _ _ _ hd]
  cases hfm : findMarket (getOrCreateUser db wa).1.markets
      (digitsToNat (pyLower (pyStrip s)) : ℤ) <;> simp [hfm]

/-- Witness for C4: on the seed database, the digit body " 1 " (normalized to
"1") makes the handler send the two-button prompt for market 1. -/
theorem digit_text_reply_witness :
    processBody (wrapMsg (mkTextMsg (Json.str "u1") (Json.str " 1 "))) seedDB =
      ⟨{ seedDB with users := [⟨Json.str "u1", 1000.0⟩] },
       [Ev.commit { seedDB with users := [⟨Json.str "u1", 1000.0⟩] },
        Ev.send (OutMsg.buttons (Json.str "u1")
          "Will India win the next match?\n\nYES: 0.50 | NO: 0.50\n\nChoose:"
          "BET|1|YES" "YES (0.50)" "BET|1|NO" "NO (0.50)")],
       Resp.okTrue⟩ :=
  (digit_text_reply (Json.str "u1") " 1 " seedDB (by decide) (by decide)).trans
    (by decide)

/-- A database whose only market (id 1) is closed. -/
def closedDB : DB :=
  { users := []
    markets := [⟨1, "Closed?", false, 0.50, 0.50⟩]
    bets := []
    nextBetId := 1
    now := 0 }

/-- Counterexample to C4 as stated: on a digit message naming a market that
exists but is **closed**, the handler still sends the two-button prompt — the
digit branch never consults `is_open`, so "sent exactly when the market
exists and is open" fails at this input. -/
theorem closed_market_still_buttons :
    closedDB.markets.all (fun m => !m.is_open) = true ∧
    (processBody (wrapMsg (mkTextMsg (Json.str "u1") (Json.str "1"))) closedDB).evs =
      [Ev.commit { closedDB with users := [⟨Json.str "u1", 1000.0⟩] },
       Ev.send (yesNoButtons (Json.str "u1") ⟨1, "Closed?", false, 0.50, 0.50⟩)] := by
  decide

/-- C5 (amended): a parsed body on which the navigation prelude raises (for
instance one lacking an `entry` list, where `(data.get("entry") or [])[0]`
raises `IndexError`) is answered `{"ok": false, "error": ...}` — not
`{"ok": true}` — with no state change and no outbound send, the exception
being caught by the handler's catch-all; a body whose nested path merely
yields no message list is answered `{"ok": true}`, also with no state
change. -/
theorem inbound_malformed (data : Json) (db : DB) (e : PyErr)
    (h : navigate data = Except.error e ∨ navigate data = Except.ok none) :
    processBody data db =
      ⟨db, [],
        match navigate data with
        | .error e2 => Resp.okFalse e2
        | .ok _ => Resp.okTrue⟩ := by
  rcases h with h | h <;> simp only [processBody, h]

/-- A delivery-status style body: the nested path exists but carries no
`messages` list. -/
def noMessagesBody : Json :=
  Json.obj (.cons "entry" (Json.arr (.cons
    (Json.obj (.cons "changes" (Json.arr (.cons
      (Json.obj (.cons "value" (Json.obj .nil) .nil)) .nil)) .nil))
    .nil)) .nil)

/-- Witness for C5: the empty-object body `{}` (no `entry`) yields
`{"ok": false}` with the caught `IndexError` and no state change; a body
whose `value` has no `messages` yields `{"ok": true}` with no state change. -/
theorem inbound_malformed_witness :
    processBody (Json.obj .nil) seedDB = ⟨seedDB, [], Resp.okFalse PyErr.indexError⟩ ∧
    processBody noMessagesBody seedDB = ⟨seedDB, [], Resp.okTrue⟩ :=
  ⟨(inbound_malformed (Json.obj .nil) seedDB PyErr.indexError (Or.inl rfl)).trans
      (by decide),
   (inbound_malformed noMessagesBody seedDB PyErr.indexError (Or.inr rfl)).trans
      (by decide)⟩

/-- Counterexample to C5 as stated: at the concrete body `{}` — no `entry`
list — the handler's reply is `{"ok": false, "error": IndexError}`, not the
claimed `{"ok": true}`. -/
theorem no_entry_not_ok_true :
    (processBody (Json.obj .nil) seedDB).resp = Resp.okFalse PyErr.indexError ∧
    (processBody (Json.obj .nil) seedDB).resp ≠ Resp.okTrue := by
  decide

/-- C6: `data = await request.json()` runs **outside** the `try`, so a POST
body that is not valid JSON raises out of the handler (the transport returns
a server error, not HTTP 200 `{"ok": ...}`); every parsed JSON body, by
contrast, is answered through the `try`/`except` without any exception
escaping. -/
theorem inbound_raises_on_invalid_json :
    inbound none seedDB = Except.error PyErr.jsonDecode ∧
    ∀ (data : Json) (db : DB), inbound (some data) db = Except.ok (processBody data db) :=
  ⟨rfl, fun _ _ => rfl⟩

/-! ### What states the webhook handler can reach -/

/-- Unfolding an `Except` bind that succeeded. -/
theorem bind_ok {α β : Type} (x : Except PyErr α) (f : α → Except PyErr β) (b : β) :
    (x >>= f) = Except.ok b ↔ ∃ a, x = Except.ok a ∧ f a = Except.ok b := by
  cases x with
  | error e => simp [Bind.bind, Except.bind]
  | ok a => simp [Bind.bind, Except.bind]

/-- The text dispatch never changes the database. -/
theorem textDispatch_db (t : String) (wa : Json) (db : DB) (r : DB × List Ev)
    (h : textDispatch t wa db = Except.ok r) : r.1 = db := by
  unfold textDispatch at h
  split_ifs at h
  · exact (congrArg Prod.fst (Except.ok.inj h)).symm
  · exact (congrArg Prod.fst (Except.ok.inj h)).symm
  · cases hfu : findUser db.users wa with
    | none => rw [hfu] at h; exact absurd h (by simp [throw, throwThe, MonadExceptOf.throw])
    | some u => rw [hfu] at h; exact (congrArg Prod.fst (Except.ok.inj h)).symm
  · cases hfm : findMarket db.markets (digitsToNat t : ℤ) with
    | none => rw [hfm] at h; exact (congrArg Prod.fst (Except.ok.inj h)).symm
    | some m => rw [hfm] at h; exact (congrArg Prod.fst (Except.ok.inj h)).symm
  · exact (congrArg Prod.fst (Except.ok.inj h)).symm

/-- When the button branch fires, it runs `place_bet` with quantity 10. -/
theorem buttonBranch_db (msg ty wa : Json) (db1 : DB) (r : DB × List Ev)
    (h : buttonBranch msg ty wa db1 = Except.ok (some r)) :
    ∃ mid side, r = placeBet db1 wa mid side 10 := by
  unfold buttonBranch at h
  by_cases hty : ty = Json.str "interactive"
  · rw [if_pos hty] at h
    rw [bind_ok] at h
    obtain ⟨i0, -, h⟩ := h
    rw [bind_ok] at h
    obtain ⟨ity, -, h⟩ := h
    by_cases hb : ity = Json.str "button_reply"
    · rw [if_pos hb] at h
      rw [bind_ok] at h
      obtain ⟨br, -, h⟩ := h
      rw [bind_ok] at h
      obtain ⟨bid, -, h⟩ := h
      rw [bind_ok] at h
      obtain ⟨s, -, h⟩ := h
      by_cases hp : (pySplit s '|').length = 3 ∧ (pySplit s '|').headD "" = "BET"
      · rw [if_pos hp] at h
        rw [bind_ok] at h
        obtain ⟨mid, -, h⟩ := h
        simp only [pure, Except.pure, Except.ok.injEq, Option.some.injEq] at h
        exact ⟨mid, (pySplit s '|').getD 2 "", h.symm⟩
      · rw [if_neg hp] at h
        simp [pure, Except.pure] at h
    · rw [if_neg hb] at h
      simp [pure, Except.pure] at h
  · rw [if_neg hty] at h
    simp [pure, Except.pure] at h

/-- A successful `handleMsg` either left the database alone (every text
command) or ran `place_bet` with quantity 10 (the button tap). -/
theorem handleMsg_db (msg wa : Json) (db1 : DB) (r : DB × List Ev)
    (h : handleMsg msg wa db1 = Except.ok r) :
    r.1 = db1 ∨ ∃ mid side, r = placeBet db1 wa mid side 10 := by
  unfold handleMsg at h
  rw [bind_ok] at h
  obtain ⟨ty, -, h⟩ := h
  rw [bind_ok] at h
  obtain ⟨btn, hbtn, h⟩ := h
  cases btn with
  | some r2 =>
    right
    simp only [pure, Except.pure, Except.ok.injEq] at h
    obtain ⟨mid, side, hps⟩ := buttonBranch_db msg ty wa db1 r2 hbtn
    exact ⟨mid, side, h ▸ hps⟩
  | none =>
    left
    by_cases hty2 : ty = Json.str "text"
    · simp only [hty2, eq_self_iff_true, if_true] at h
      rw [bind_ok] at h
      obtain ⟨t0, -, h⟩ := h
      rw [bind_ok] at h
      obtain ⟨b0, -, h⟩ := h
      rw [bind_ok] at h
      obtain ⟨s0, -, h⟩ := h
      rw [bind_ok] at h
      obtain ⟨t1, -, h⟩ := h
      exact textDispatch_db t1 wa db1 r h
    · simp only [if_neg hty2] at h
      rw [bind_ok] at h
      obtain ⟨t1, -, h⟩ := h
      exact textDispatch_db t1 wa db1 r h

/-- Every state the POST handler can commit: the incoming state itself, the
state after the lazy user creation, or the state after a quantity-10
`place_bet` on top of it. -/
theorem processBody_state (data : Json) (db : DB) :
    (processBody data db).db = db ∨
    (∃ wa, (processBody data db).db = (getOrCreateUser db wa).1) ∨
    (∃ wa mid side,
      (processBody data db).db = (placeBet (getOrCreateUser db wa).1 wa mid side 10).1) := by
  cases hnav : navigate data with
  | error e =>
    left
    simp [processBody, hnav]
  | ok o =>
    cases o with
    | none =>
      left
      simp [processBody, hnav]
    | some p =>
      obtain ⟨msg, wa⟩ := p
      cases hh : handleMsg msg wa (getOrCreateUser db wa).1 with
      | error e =>
        right; left
        refine ⟨wa, ?_⟩
        simp [processBody, hnav, hh]
      | ok r =>
        obtain ⟨rdb, revs⟩ := r
        rcases handleMsg_db msg wa _ (rdb, revs) hh with hsame | ⟨mid, side, hps⟩
        · right; left
          refine ⟨wa, ?_⟩
          simp only [processBody, hnav, hh]
          exact hsame
        · right; right
          refine ⟨wa, mid, side, ?_⟩
          simp only [processBody, hnav, hh]
          exact congrArg Prod.fst hps

/-! ### Invariants: non-negative balances, unique user keys, quantity-10 bets -/

/-- All stored balances are non-negative. -/
def balancesOk (db : DB) : Bool := db.users.all (fun u => decide (0 ≤ u.balance))

/-- The `users` primary key is unique (no duplicated `wa_id`). -/
def usersKeyed (db : DB) : Bool := decide ((db.users.map (fun u => u.wa_id)).Nodup)

/-- Every stored bet has quantity exactly 10. -/
def betsQtyTen (db : DB) : Bool := db.bets.all (fun b => decide (b.qty = 10))

/-- An absent key matches no stored row. -/
theorem findUser_none (us : List UserR) (wa : Json) (h : findUser us wa = none) :
    ∀ v ∈ us, v.wa_id ≠ wa := by
  induction us with
  | nil => simp
  | cons x xs ih =>
    unfold findUser at h
    by_cases hx : x.wa_id = wa
    · rw [if_pos hx] at h
      exact absurd h (by simp)
    · rw [if_neg hx] at h
      intro v hv
      rcases List.mem_cons.mp hv with rfl | hv2
      · exact hx
      · exact ih h v hv2

/-- With unique keys, any row carrying the looked-up key is the found row. -/
theorem findUser_unique (us : List UserR) (wa : Json) (u v : UserR)
    (hnd : (us.map (fun x => x.wa_id)).Nodup)
    (hf : findUser us wa = some u) (hv : v ∈ us) (hvwa : v.wa_id = wa) : v = u := by
  induction us with
  | nil => cases hv
  | cons x xs ih =>
    rw [List.map_cons, List.nodup_cons] at hnd
    unfold findUser at hf
    by_cases hx : x.wa_id = wa
    · rw [if_pos hx] at hf
      have hxu : x = u := Option.some.inj hf
      rcases List.mem_cons.mp hv with rfl | hv2
      · exact hxu
      · exfalso
        apply hnd.1
        have hmm : v.wa_id ∈ xs.map (fun y => y.wa_id) := List.mem_map_of_mem _ hv2
        rw [hvwa, ← hx] at hmm
        exact hmm
    · rw [if_neg hx] at hf
      rcases List.mem_cons.mp hv with rfl | hv2
      · exact absurd hvwa hx
      · exact ih hnd.2 hf hv2

/-- The debit never drives a balance negative: the debited row is the checked
row (unique keys) and the check guaranteed `cost ≤ balance`. -/
theorem debit_balances (us : List UserR) (wa : Json) (u : UserR) (c : ℚ)
    (hok : ∀ v ∈ us, 0 ≤ v.balance)
    (hnd : (us.map (fun x => x.wa_id)).Nodup)
    (hf : findUser us wa = some u) (hc : c ≤ u.balance) :
    ∀ v ∈ debitUser us wa c, 0 ≤ v.balance := by
  intro v2 hv2
  unfold debitUser at hv2
  obtain ⟨v, hv, rfl⟩ := List.mem_map.mp hv2
  by_cases hx : v.wa_id = wa
  · rw [if_pos hx]
    have hvu : v = u := findUser_unique us wa u v hnd hf hv hx
    subst hvu
    have := hok v hv
    show 0 ≤ v.balance - c
    linarith
  · rw [if_neg hx]
    exact hok v hv

/-- User creation preserves both users-table invariants. -/
theorem getOrCreateUser_inv (db : DB) (wa : Json)
    (h1 : balancesOk db = true) (h2 : usersKeyed db = true) :
    balancesOk (getOrCreateUser db wa).1 = true ∧
    usersKeyed (getOrCreateUser db wa).1 = true := by
  cases h : findUser db.users wa with
  | some u =>
    simp only [getOrCreateUser, h]
    exact ⟨h1, h2⟩
  | none =>
    have hnotin := findUser_none db.users wa h
    simp only [getOrCreateUser, h]
    constructor
    · unfold balancesOk at h1 ⊢
      simp only [List.all_eq_true, decide_eq_true_eq] at h1 ⊢
      intro v hv
      rcases List.mem_append.mp hv with hv1 | hv1
      · exact h1 v hv1
      · rcases List.mem_singleton.mp hv1 with rfl
        norm_num
    · unfold usersKeyed at h2 ⊢
      simp only [decide_eq_true_eq] at h2 ⊢
      have hmem : wa ∉ db.users.map (fun u => u.wa_id) := by
        simp only [List.mem_map, not_exists, not_and]
        intro v hv
        exact hnotin v hv
      simp [List.nodup_append, h2, hmem]

/-- Unfolding `balancesOk`. -/
theorem balancesOk_iff (db : DB) :
    balancesOk db = true ↔ ∀ u ∈ db.users, 0 ≤ u.balance := by
  simp [balancesOk]

/-- Unfolding `usersKeyed`. -/
theorem usersKeyed_iff (db : DB) :
    usersKeyed db = true ↔ (db.users.map (fun u => u.wa_id)).Nodup := by
  simp [usersKeyed]

/-- `place_bet` preserves both users-table invariants: the only balance write
is the debit guarded by the balance check. -/
theorem placeBet_inv (db : DB) (wa : Json) (marketId : ℤ) (side : String)
    (qty : ℤ) (h1 : balancesOk db = true) (h2 : usersKeyed db = true) :
    balancesOk (placeBet db wa marketId side qty).1 = true ∧
    usersKeyed (placeBet db wa marketId side qty).1 = true := by
  obtain ⟨g1, g2⟩ := getOrCreateUser_inv db wa h1 h2
  obtain ⟨hfind, hwa, -, -, -, -⟩ := getOrCreateUser_find db wa
  simp only [placeBet]
  cases hm : findMarket (getOrCreateUser db wa).1.markets marketId with
  | none => exact ⟨g1, g2⟩
  | some m =>
    cases hopen : m.is_open with
    | false => simpa [hopen] using ⟨g1, g2⟩
    | true =>
      by_cases hside : pyUpper side = "YES" ∨ pyUpper side = "NO"
      · by_cases hbal : (getOrCreateUser db wa).2.2.balance <
            (qty : ℚ) * (if pyUpper side = "YES" then m.yes_price else m.no_price)
        · simp only [hopen, Bool.not_true, Bool.false_eq_true, if_false,
            if_neg (not_not_intro hside), if_pos hbal]
          exact ⟨g1, g2⟩
        · simp only [hopen, Bool.not_true, Bool.false_eq_true, if_false,
            if_neg (not_not_intro hside), if_neg hbal]
          have hnd := (usersKeyed_iff _).mp g2
          refine ⟨?_, ?_⟩
          · rw [balancesOk_iff]
            exact debit_balances (getOrCreateUser db wa).1.users wa
              (getOrCreateUser db wa).2.2 _ ((balancesOk_iff _).mp g1) hnd hfind
              (not_lt.mp hbal)
          · rw [usersKeyed_iff]
            show ((debitUser (getOrCreateUser db wa).1.users wa _).map
              (fun u => u.wa_id)).Nodup
            rw [debitUser_keys]
            exact hnd
      · simpa [hopen, hside] using ⟨g1, g2⟩

/-- C9: balances are non-negative and stay so under every operation — the
seed state has no negative balance, user creation only adds the default
1000.0, a `place_bet` only debits after its `balance >= cost` check (so the
debited balance is still `>= 0`), and therefore every state the POST handler
commits from a good state keeps all balances non-negative. -/
theorem balances_nonneg (db : DB) (data : Json) (wa : Json) (marketId : ℤ)
    (side : String) (qty : ℤ)
    (h1 : balancesOk db = true) (h2 : usersKeyed db = true) :
    balancesOk seedDB = true ∧
    balancesOk (getOrCreateUser db wa).1 = true ∧
    balancesOk (placeBet db wa marketId side qty).1 = true ∧
    balancesOk (processBody data db).db = true := by
  refine ⟨by decide, (getOrCreateUser_inv db wa h1 h2).1,
    (placeBet_inv db wa marketId side qty h1 h2).1, ?_⟩
  rcases processBody_state data db with hs | ⟨wa2, hs⟩ | ⟨wa2, mid, side2, hs⟩
  · rw [hs]; exact h1
  · rw [hs]; exact (getOrCreateUser_inv db wa2 h1 h2).1
  · rw [hs]
    obtain ⟨i1, i2⟩ := getOrCreateUser_inv db wa2 h1 h2
    exact (placeBet_inv _ wa2 mid side2 10 i1 i2).1

/-- Witness for C9: from the seed state, a full button-tap webhook round
(bet of 10 YES on market 1 by a fresh user) keeps every balance
non-negative. -/
theorem balances_nonneg_witness :
    (balancesOk seedDB = true ∧ usersKeyed seedDB = true) ∧
    (balancesOk seedDB = true ∧
     balancesOk (getOrCreateUser seedDB (Json.str "w")).1 = true ∧
     balancesOk (placeBet seedDB (Json.str "w") 1 "YES" 10).1 = true ∧
     balancesOk (processBody (wrapMsg (mkButtonMsg (Json.str "w") "BET|1|YES"))
       seedDB).db = true) :=
  ⟨⟨by decide, by decide⟩,
    balances_nonneg seedDB (wrapMsg (mkButtonMsg (Json.str "w") "BET|1|YES"))
      (Json.str "w") 1 "YES" 10 (by decide) (by decide)⟩

/-- The bets table after `place_bet`: unchanged on any failure, else exactly
one appended bet carrying the call's quantity. -/
theorem placeBet_bets (db : DB) (wa : Json) (marketId : ℤ) (side : String)
    (qty : ℤ) :
    (placeBet db wa marketId side qty).1.bets = db.bets ∨
    ∃ b : BetR, b.qty = qty ∧
      (placeBet db wa marketId side qty).1.bets = db.bets ++ [b] := by
  obtain ⟨-, -, -, hbt, -, -⟩ := getOrCreateUser_find db wa
  simp only [placeBet]
  cases hm : findMarket (getOrCreateUser db wa).1.markets marketId with
  | none => exact Or.inl hbt
  | some m =>
    cases hopen : m.is_open with
    | false => exact Or.inl (by simpa [hopen] using hbt)
    | true =>
      by_cases hside : pyUpper side = "YES" ∨ pyUpper side = "NO"
      · by_cases hbal : (getOrCreateUser db wa).2.2.balance <
            (qty : ℚ) * (if pyUpper side = "YES" then m.yes_price else m.no_price)
        · simp only [hopen, Bool.not_true, Bool.false_eq_true, if_false,
            if_neg (not_not_intro hside), if_pos hbal]
          exact Or.inl hbt
        · simp only [hopen, Bool.not_true, Bool.false_eq_true, if_false,
            if_neg (not_not_intro hside), if_neg hbal]
          exact Or.inr ⟨_, rfl, by rw [hbt]⟩
      · simp only [hopen, Bool.not_true, Bool.false_eq_true, if_false,
          if_pos hside]
        exact Or.inl hbt

/-- C10: through the webhook interface every created bet has quantity exactly
10 — the only `place_bet` call site is the button-tap branch with `qty=10` —
so "all bets have qty 10" holds in the seed state and is preserved by every
POST webhook event. -/
theorem webhook_bets_qty_ten (db : DB) (data : Json)
    (h : betsQtyTen db = true) :
    betsQtyTen seedDB = true ∧ betsQtyTen (processBody data db).db = true := by
  refine ⟨by decide, ?_⟩
  rcases processBody_state data db with hs | ⟨wa, hs⟩ | ⟨wa, mid, side, hs⟩
  · rw [hs]; exact h
  · obtain ⟨-, -, -, hbt, -, -⟩ := getOrCreateUser_find db wa
    rw [hs]
    unfold betsQtyTen at h ⊢
    rw [hbt]
    exact h
  · obtain ⟨-, -, -, hbt1, -, -⟩ := getOrCreateUser_find db wa
    rw [hs]
    rcases placeBet_bets (getOrCreateUser db wa).1 wa mid side 10 with hb | ⟨b, hbq, hb⟩
    · unfold betsQtyTen at h ⊢
      rw [hb, hbt1]
      exact h
    · unfold betsQtyTen at h ⊢
      rw [hb, hbt1, List.all_append]
      simp [h, hbq]

/-- Witness for C10: the seed state has only qty-10 bets (vacuously), and so
does the state after a concrete button-tap webhook delivery. -/
theorem webhook_bets_qty_ten_witness :
    betsQtyTen seedDB = true ∧
    betsQtyTen (processBody (wrapMsg (mkButtonMsg (Json.str "w2") "BET|2|NO"))
      seedDB).db = true :=
  webhook_bets_qty_ten seedDB (wrapMsg (mkButtonMsg (Json.str "w2") "BET|2|NO"))
    (by decide)

end Trading
